import Mathlib

/-!
Shallow embedding of the resume-ATS checker service (src/main.py).

The embedding models:
- JSON values and a model of Python json.loads (JSON numbers are modelled
  as integers; fractional/exponent number forms, lone surrogate escapes and
  surrogate-pair escapes are outside the model, which is sound for every
  input appearing in the development below);
- the response-parsing portion of process_chunk: the regex
  r"\x7b.*\x7d" with DOTALL (first open brace through last close brace),
  the fall-back to the stripped raw text, and the error record built on
  json.JSONDecodeError;
- merge_results, faithfully over JSON values, including Python dict .get
  semantics, list.extend iterable semantics, truthiness tests,
  floor division for the score average, and dict.fromkeys deduplication
  (with its hashability requirement);
- the /parse_resume handler body: chunk replies are parsed, merged and
  wrapped as an ok/data JSON response; the temporary file is created
  before the try block and removed in the finally block.

Fallible Python operations (AttributeError on .get of a non-dict,
TypeError on extending a non-iterable or hashing an unhashable value)
are modelled with Except; an uncaught exception in the handler body is an
error value of that type.
-/

/-- JSON values as produced by the model of json.loads. Numbers are
modelled as integers. -/
inductive Json where
  | null : Json
  | bool : Bool → Json
  | num : Int → Json
  | str : String → Json
  | arr : List Json → Json
  | obj : List (String × Json) → Json

/-- JSON whitespace characters (RFC 8259, as accepted by json.loads). -/
def jsonWsChar : Char → Bool
  | ' ' | '\t' | '\n' | '\r' => true
  | _ => false

/-- Drop leading JSON whitespace. -/
def skipWs (cs : List Char) : List Char := cs.dropWhile jsonWsChar

/-- Value of a hexadecimal digit character. -/
def hexVal (c : Char) : Option Nat :=
  let n := c.toNat
  if 48 ≤ n ∧ n ≤ 57 then some (n - 48)
  else if 97 ≤ n ∧ n ≤ 102 then some (n - 87)
  else if 65 ≤ n ∧ n ≤ 70 then some (n - 55)
  else none

/-- Accumulate decimal digits into a natural number. -/
def digitsToNat (acc : Nat) : List Char → Nat
  | [] => acc
  | c :: cs => digitsToNat (acc * 10 + (c.toNat - '0'.toNat)) cs

/-- Parse an unsigned JSON integer token. A leading zero is not followed
by further digits (matching the JSON grammar used by json.loads). -/
def parseNatTok : List Char → Option (Nat × List Char)
  | [] => none
  | c :: cs =>
    if c == '0' then some (0, cs)
    else if c.isDigit then
      some (digitsToNat (c.toNat - '0'.toNat) (cs.takeWhile Char.isDigit),
            cs.dropWhile Char.isDigit)
    else none

/-- Parse a signed JSON integer token. -/
def parseIntTok : List Char → Option (Int × List Char)
  | '-' :: cs => (parseNatTok cs).map (fun p => (-(p.1 : Int), p.2))
  | cs => (parseNatTok cs).map (fun p => ((p.1 : Int), p.2))

/-- Simple escape characters inside JSON strings. -/
def escSimple : Char → Option Char
  | '"' => some '"'
  | '\\' => some '\\'
  | '/' => some '/'
  | 'b' => some (Char.ofNat 8)
  | 'f' => some (Char.ofNat 12)
  | 'n' => some (Char.ofNat 10)
  | 'r' => some (Char.ofNat 13)
  | 't' => some (Char.ofNat 9)
  | _ => none

/-- Parse the body of a JSON string after the opening quote; returns the
content characters and the remainder after the closing quote. Unescaped
control characters are rejected (json.loads default strict mode). -/
def parseStrChars : List Char → Option (List Char × List Char)
  | [] => none
  | '"' :: rest => some ([], rest)
  | '\\' :: 'u' :: a :: b :: c :: d :: rest =>
    match hexVal a, hexVal b, hexVal c, hexVal d with
    | some ha, some hb, some hc, some hd =>
      let code := ((ha * 16 + hb) * 16 + hc) * 16 + hd
      if 0xD800 ≤ code ∧ code < 0xE000 then none
      else
        match parseStrChars rest with
        | some (content, rem) => some (Char.ofNat code :: content, rem)
        | none => none
    | _, _, _, _ => none
  | '\\' :: e :: rest =>
    match escSimple e with
    | some ch =>
      match parseStrChars rest with
      | some (content, rem) => some (ch :: content, rem)
      | none => none
    | none => none
  | c :: rest =>
    if c.toNat < 32 then none
    else
      match parseStrChars rest with
      | some (content, rem) => some (c :: content, rem)
      | none => none

/-- Insert a key/value pair with Python dict semantics: a repeated key
keeps its first position and takes the last value. -/
def objInsert (kvs : List (String × Json)) (k : String) (v : Json) :
    List (String × Json) :=
  if kvs.any (fun kv => kv.fst == k) then
    kvs.map (fun kv => if kv.fst == k then (k, v) else kv)
  else kvs ++ [(k, v)]

mutual

/-- Fueled parser for one JSON value (leading whitespace is skipped). -/
def parseVal : Nat → List Char → Option (Json × List Char)
  | 0, _ => none
  | n + 1, cs =>
    match skipWs cs with
    | 'n' :: 'u' :: 'l' :: 'l' :: rest => some (Json.null, rest)
    | 't' :: 'r' :: 'u' :: 'e' :: rest => some (Json.bool true, rest)
    | 'f' :: 'a' :: 'l' :: 's' :: 'e' :: rest => some (Json.bool false, rest)
    | '"' :: rest =>
      match parseStrChars rest with
      | some (content, rem) => some (Json.str (String.mk content), rem)
      | none => none
    | '[' :: rest => parseArrTail n rest
    | '{' :: rest => parseObjTail n rest
    | other =>
      match parseIntTok other with
      | some (i, rem) => some (Json.num i, rem)
      | none => none

/-- Fueled parser for the tail of a JSON array (after the open bracket). -/
def parseArrTail : Nat → List Char → Option (Json × List Char)
  | 0, _ => none
  | n + 1, cs =>
    match skipWs cs with
    | ']' :: rest => some (Json.arr [], rest)
    | cs1 => parseArrItems n [] cs1

/-- Fueled parser for the comma-separated items of a nonempty array. -/
def parseArrItems : Nat → List Json → List Char → Option (Json × List Char)
  | 0, _, _ => none
  | n + 1, acc, cs =>
    match parseVal n cs with
    | none => none
    | some (v, rest) =>
      match skipWs rest with
      | ',' :: rest2 => parseArrItems n (v :: acc) rest2
      | ']' :: rest2 => some (Json.arr (v :: acc).reverse, rest2)
      | _ => none

/-- Fueled parser for the tail of a JSON object (after the open brace). -/
def parseObjTail : Nat → List Char → Option (Json × List Char)
  | 0, _ => none
  | n + 1, cs =>
    match skipWs cs with
    | '}' :: rest => some (Json.obj [], rest)
    | cs1 => parseObjItems n [] cs1

/-- Fueled parser for the comma-separated members of a nonempty object. -/
def parseObjItems : Nat → List (String × Json) → List Char →
    Option (Json × List Char)
  | 0, _, _ => none
  | n + 1, acc, cs =>
    match skipWs cs with
    | '"' :: rest =>
      match parseStrChars rest with
      | none => none
      | some (kchars, rest2) =>
        match skipWs rest2 with
        | ':' :: rest3 =>
          match parseVal n rest3 with
          | none => none
          | some (v, rest4) =>
            match skipWs rest4 with
            | ',' :: rest5 => parseObjItems n (objInsert acc (String.mk kchars) v) rest5
            | '}' :: rest5 => some (Json.obj (objInsert acc (String.mk kchars) v), rest5)
            | _ => none
        | _ => none
    | _ => none

end

/-- Model of Python json.loads: parse one JSON value and require that only
whitespace remains (otherwise json.loads raises, modelled as none). -/
def jsonLoads (s : String) : Option Json :=
  match parseVal (4 * s.data.length + 8) s.data with
  | some (v, rest) => if (skipWs rest).isEmpty then some v else none
  | none => none

/-- Python str.strip whitespace characters. -/
def pySpaceChar : Char → Bool
  | ' ' | '\t' | '\n' | '\r' | '\x0b' | '\x0c' => true
  | _ => false

/-- Model of Python str.strip(). -/
def pyStrip (s : String) : String :=
  String.mk (((s.data.dropWhile pySpaceChar).reverse.dropWhile pySpaceChar).reverse)

/-- Index of the first open brace in a character list. -/
def idxOfOpen : List Char → Option Nat
  | [] => none
  | c :: cs => if c == '{' then some 0 else (idxOfOpen cs).map (· + 1)

/-- Index, in a reversed character list, of the first close brace; on the
original list this locates the last close brace. -/
def idxOfCloseRev : List Char → Option Nat
  | [] => none
  | c :: cs => if c == '}' then some 0 else (idxOfCloseRev cs).map (· + 1)

/-- The text matched by re.search of the DOTALL pattern open-brace,
any characters, close-brace: the span from the first open brace through
the last close brace after it, none when no such span exists. -/
def braceBlock (s : String) : Option String :=
  match idxOfOpen s.data with
  | none => none
  | some i =>
    let after := s.data.drop i
    match idxOfCloseRev after.reverse with
    | none => none
    | some k => some (String.mk (after.take (after.length - k)))

/-- The text handed to json.loads by process_chunk: the regex match when
there is one, otherwise the stripped raw reply. -/
def candidateText (raw : String) : String :=
  (braceBlock raw).getD (pyStrip raw)

/-- The error payload built by process_chunk when json.loads raises. -/
def errorRecord (raw : String) : Json :=
  Json.obj [("raw_output", Json.str raw), ("error", Json.str "Failed to parse JSON")]

/-- The response-parsing portion of process_chunk: extract the candidate
text, decode it, and fall back to the error record on decode failure. -/
def process_chunk_parse (raw : String) : Json :=
  match jsonLoads (candidateText raw) with
  | some v => v
  | none => errorRecord raw

/-- First-match association lookup, the semantics of Python dict indexing
for the unique-keyed objects handled below. -/
def lookupKV : List (String × Json) → String → Option Json
  | [], _ => none
  | kv :: kvs, k => if kv.fst == k then some kv.snd else lookupKV kvs k

/-- Python dict.get with a default, raising AttributeError (modelled as
an error value) when the receiver is not a dict. -/
def pyGetD (r : Json) (k : String) (d : Json) : Except String Json :=
  match r with
  | .obj kvs => .ok ((lookupKV kvs k).getD d)
  | _ => .error "AttributeError"

/-- Python truthiness of a JSON value. -/
def pyTruthy : Json → Bool
  | .null => false
  | .bool b => b
  | .num n => n != 0
  | .str s => !s.isEmpty
  | .arr xs => !xs.isEmpty
  | .obj kvs => !kvs.isEmpty

/-- Python iteration of a JSON value, as consumed by list.extend: a list
yields its elements, a string its characters, a dict its keys; other
values raise TypeError (modelled as an error value). -/
def pyIter : Json → Except String (List Json)
  | .arr xs => .ok xs
  | .str s => .ok (s.data.map (fun c => .str (String.mk [c])))
  | .obj kvs => .ok (kvs.map (fun kv => .str kv.fst))
  | _ => .error "TypeError: not iterable"

/-- One list-field update of merge_results:
merged[key].extend(r.get(key, [])). -/
def extendField (cur : List Json) (r : Json) (k : String) :
    Except String (List Json) :=
  match pyGetD r k (.arr []) with
  | .error e => .error e
  | .ok v =>
    match pyIter v with
    | .error e => .error e
    | .ok xs => .ok (cur ++ xs)

/-- The mutable merged dict of merge_results. Its keys are fixed for the
whole run, so it is modelled as a structure; the score is computed after
the loop and the three deduplicated lists are rewritten at the end, as in
the source. -/
structure MSt where
  name : Json
  email : Json
  phone : Json
  skills : List Json
  experience : List Json
  education : List Json
  certifications : List Json
  keywords : List Json
  suggestions : List Json

/-- The merged dict as initialised at the top of merge_results. -/
def initSt : MSt := ⟨.null, .null, .null, [], [], [], [], [], []⟩

/-- One iteration of the merge loop over a parsed result r: the six list
extends in source order, then the first-truthy updates of name and of
contact email and phone, with Python's short-circuit evaluation of the
conditions. -/
def mergeStep (st : MSt) (r : Json) : Except String MSt :=
  match extendField st.skills r "skills" with
  | .error e => .error e
  | .ok skills =>
  match extendField st.experience r "experience" with
  | .error e => .error e
  | .ok experience =>
  match extendField st.education r "education" with
  | .error e => .error e
  | .ok education =>
  match extendField st.certifications r "certifications" with
  | .error e => .error e
  | .ok certifications =>
  match extendField st.keywords r "keywords" with
  | .error e => .error e
  | .ok keywords =>
  match extendField st.suggestions r "suggestions" with
  | .error e => .error e
  | .ok suggestions =>
  match pyGetD r "name" .null with
  | .error e => .error e
  | .ok rName =>
  let name := if !(pyTruthy st.name) && pyTruthy rName then rName else st.name
  match
    (if pyTruthy st.email then .ok st.email else
      match pyGetD r "contact" (.obj []) with
      | .error e => .error e
      | .ok rContact =>
        match pyGetD rContact "email" .null with
        | .error e => .error e
        | .ok rEmail => .ok (if pyTruthy rEmail then rEmail else st.email) :
      Except String Json) with
  | .error e => .error e
  | .ok email =>
  match
    (if pyTruthy st.phone then .ok st.phone else
      match pyGetD r "contact" (.obj []) with
      | .error e => .error e
      | .ok rContact =>
        match pyGetD rContact "phone" .null with
        | .error e => .error e
        | .ok rPhone => .ok (if pyTruthy rPhone then rPhone else st.phone) :
      Except String Json) with
  | .error e => .error e
  | .ok phone =>
    .ok ⟨name, email, phone, skills, experience, education, certifications,
         keywords, suggestions⟩

/-- The merge loop: for r in results, in order, with an uncaught Python
exception short-circuiting. -/
def mergeLoop : MSt → List Json → Except String MSt
  | st, [] => .ok st
  | st, r :: rs =>
    match mergeStep st r with
    | .error e => .error e
    | .ok st2 => mergeLoop st2 rs

/-- The numeric ats_score of one result, as selected by the comprehension
in merge_results: present when r.get of ats_score is an int or float
(Python bools are ints: True counts as 1, False as 0). Raises
AttributeError when r is not a dict. -/
def scoreOfQ (r : Json) : Except String (Option Int) :=
  match r with
  | .obj kvs =>
    .ok (match lookupKV kvs "ats_score" with
      | some (.num n) => some n
      | some (.bool b) => some (if b then 1 else 0)
      | _ => none)
  | _ => .error "AttributeError"

/-- The scores comprehension of merge_results, in result order. -/
def pyScores : List Json → Except String (List Int)
  | [] => .ok []
  | r :: rs =>
    match scoreOfQ r with
    | .error e => .error e
    | .ok s =>
      match pyScores rs with
      | .error e => .error e
      | .ok rest => .ok (match s with | some n => n :: rest | none => rest)

/-- Hashability of a JSON value as a Python dict key: lists and dicts are
unhashable. -/
def pyHashable : Json → Bool
  | .arr _ => false
  | .obj _ => false
  | _ => true

/-- Python equality on the hashable JSON values, as used for dict keys:
booleans and numbers compare numerically across the two kinds, everything
else structurally within its kind. Unhashable values never reach this
comparison in the development below. -/
def toNumQ : Json → Option Int
  | .bool b => some (if b then 1 else 0)
  | .num n => some n
  | _ => none

/-- Python == on hashable JSON values. -/
def pyEq (a b : Json) : Bool :=
  match toNumQ a, toNumQ b with
  | some x, some y => x == y
  | _, _ =>
    match a, b with
    | .null, .null => true
    | .str s, .str t => s == t
    | _, _ => false

/-- Order-preserving first-occurrence deduplication with respect to pyEq,
the observable content of list(dict.fromkeys(lst)). -/
def pyDedupGo : List Json → List Json → List Json
  | _, [] => []
  | seen, x :: xs =>
    if seen.any (fun y => pyEq y x) then pyDedupGo seen xs
    else x :: pyDedupGo (x :: seen) xs

/-- list(dict.fromkeys(lst)): raises TypeError when some element is
unhashable, otherwise the order-preserving deduplication. (CPython
raises at the first unhashable element mid-iteration; the partially built
dict is discarded, so checking all elements first is observably equal.) -/
def pyFromKeys (l : List Json) : Except String (List Json) :=
  if l.all pyHashable then .ok (pyDedupGo [] l)
  else .error "TypeError: unhashable"

/-- Final rendering of the merged dict, in the key order of the source
literal; ats_reason is never updated by the loop and stays empty. -/
def renderMerged (st : MSt) (score : Int)
    (skills keywords suggestions : List Json) : Json :=
  .obj [("name", st.name),
        ("contact", .obj [("email", st.email), ("phone", st.phone)]),
        ("skills", .arr skills),
        ("experience", .arr st.experience),
        ("education", .arr st.education),
        ("certifications", .arr st.certifications),
        ("ats_score", .num score),
        ("keywords", .arr keywords),
        ("suggestions", .arr suggestions),
        ("ats_reason", .str "")]

/-- merge_results: the merge loop, the score average with Python floor
division guarded by the emptiness test, and the deduplication of skills,
keywords and suggestions. -/
def merge_results (results : List Json) : Except String Json :=
  match mergeLoop initSt results with
  | .error e => .error e
  | .ok st =>
    match pyScores results with
    | .error e => .error e
    | .ok scores =>
      let score : Int := if scores.isEmpty then 0 else scores.sum.fdiv scores.length
      match pyFromKeys st.skills with
      | .error e => .error e
      | .ok skills =>
        match pyFromKeys st.keywords with
        | .error e => .error e
        | .ok keywords =>
          match pyFromKeys st.suggestions with
          | .error e => .error e
          | .ok suggestions =>
            .ok (renderMerged st score skills keywords suggestions)

/-- The body of the /parse_resume success path applied to already parsed
chunk results: merge and wrap as a JSONResponse content. -/
def respondBody (results : List Json) : Except String Json :=
  match merge_results results with
  | .error e => .error e
  | .ok merged => .ok (Json.obj [("ok", Json.bool true), ("data", merged)])

/-- The /parse_resume pipeline from the raw model replies: each reply goes
through process_chunk's parse portion (asyncio.gather keeps reply order),
the parsed results are merged, and the response is ok/data on success; an
error value models an uncaught exception surfacing as a server error. -/
def parse_resume_response (replies : List String) : Except String Json :=
  respondBody (replies.map process_chunk_parse)

/-- Model of the /parse_resume handler with its external stages as
oracles: the filesystem is a list of existing paths, the temporary file
is created before the try block, the body runs extraction, chunking, the
model calls and the parse/merge pipeline, and the finally block removes
the temporary file. Returns the body's outcome and the final filesystem. -/
def mapME : (String → Except String String) → List String →
    Except String (List String)
  | _, [] => .ok []
  | f, c :: cs =>
    match f c with
    | .error e => .error e
    | .ok r =>
      match mapME f cs with
      | .error e => .error e
      | .ok rs => .ok (r :: rs)

/-- The try-block body of parse_resume given the stage oracles. -/
def parse_resume_body (extract : Except String String)
    (chunkOf : String → Except String (List String))
    (modelReply : String → Except String String) : Except String Json :=
  match extract with
  | .error e => .error e
  | .ok text =>
    match chunkOf text with
    | .error e => .error e
    | .ok chunks =>
      match mapME modelReply chunks with
      | .error e => .error e
      | .ok replies => parse_resume_response replies

/-- The whole handler: temp-file creation, try body, finally removal. -/
def parse_resume_run (fs : List String) (tmpPath : String)
    (extract : Except String String)
    (chunkOf : String → Except String (List String))
    (modelReply : String → Except String String) :
    Except String Json × List String :=
  let fsAfterWrite := tmpPath :: fs
  let body := parse_resume_body extract chunkOf modelReply
  (body, fsAfterWrite.erase tmpPath)

/-- A well-shaped parsed result with the fixed keys of the data model:
optional scalars, string lists for skills, keywords and suggestions,
structured-entry lists for experience, education and certifications, and
an optional integer ats_score. -/
structure PRes where
  name : Option String
  email : Option String
  phone : Option String
  skills : List String
  experience : List Json
  education : List Json
  certifications : List Json
  ats_score : Option Int
  keywords : List String
  suggestions : List String
  ats_reason : String

/-- Rendering of an optional string as a JSON scalar. -/
def optStrJson : Option String → Json
  | none => .null
  | some s => .str s

/-- Rendering of an optional integer as a JSON scalar. -/
def optIntJson : Option Int → Json
  | none => .null
  | some n => .num n

/-- The JSON object carrying a well-shaped parsed result, with the
top-level keys mandated by the prompt schema. -/
def PRes.toJson (p : PRes) : Json :=
  .obj [("name", optStrJson p.name),
        ("contact", .obj [("email", optStrJson p.email), ("phone", optStrJson p.phone)]),
        ("skills", .arr (p.skills.map Json.str)),
        ("experience", .arr p.experience),
        ("education", .arr p.education),
        ("certifications", .arr p.certifications),
        ("ats_score", optIntJson p.ats_score),
        ("keywords", .arr (p.keywords.map Json.str)),
        ("suggestions", .arr (p.suggestions.map Json.str)),
        ("ats_reason", .str p.ats_reason)]

/-- First truthy optional string in order: the first entry that is
present and nonempty. This is what the merge loop's first-wins rule
computes for the scalar fields. -/
def firstTruthyStr : List (Option String) → Option String
  | [] => none
  | none :: rest => firstTruthyStr rest
  | some s :: rest => if s = "" then firstTruthyStr rest else some s

/-- First non-null optional string in order, the rule as the data-model
text states it (an empty string is non-null). -/
def firstNonNullStr (l : List (Option String)) : Option String :=
  (l.filterMap id).head?

/-- Order-preserving first-occurrence deduplication of strings. -/
def dedupStrGo : List String → List String → List String
  | _, [] => []
  | seen, x :: xs =>
    if seen.any (fun y => y == x) then dedupStrGo seen xs
    else x :: dedupStrGo (x :: seen) xs

/-- Order-preserving deduplicated list, first occurrences kept. -/
def dedupStr (l : List String) : List String := dedupStrGo [] l

/-- Floor of the mean under Python floor division, 0 on no scores. -/
def floorMean (l : List Int) : Int :=
  if l.isEmpty then 0 else l.sum.fdiv l.length

/-- Integer-truncated mean (division rounding toward zero), 0 on no
scores: the averaging rule as the specification words state it. -/
def truncMean (l : List Int) : Int :=
  if l.isEmpty then 0 else l.sum.tdiv l.length

/-- The merged result of a list of well-shaped parsed results, described
field by field: first truthy scalars, deduplicated unions for skills,
keywords and suggestions, plain concatenation for the other lists, floor
mean of the present scores, and an empty ats_reason. -/
def mergedOfPR (ps : List PRes) : Json :=
  .obj [("name", optStrJson (firstTruthyStr (ps.map PRes.name))),
        ("contact", .obj [("email", optStrJson (firstTruthyStr (ps.map PRes.email))),
                          ("phone", optStrJson (firstTruthyStr (ps.map PRes.phone)))]),
        ("skills", .arr ((dedupStr (ps.map PRes.skills).flatten).map Json.str)),
        ("experience", .arr (ps.map PRes.experience).flatten),
        ("education", .arr (ps.map PRes.education).flatten),
        ("certifications", .arr (ps.map PRes.certifications).flatten),
        ("ats_score", .num (floorMean (ps.filterMap PRes.ats_score))),
        ("keywords", .arr ((dedupStr (ps.map PRes.keywords).flatten).map Json.str)),
        ("suggestions", .arr ((dedupStr (ps.map PRes.suggestions).flatten).map Json.str)),
        ("ats_reason", .str "")]

/-- A field of a merged result, read through the ok outcome. -/
def pyGetQ (e : Except String Json) (k : String) : Option Json :=
  match e with
  | .ok (.obj kvs) => lookupKV kvs k
  | _ => none

/-- The merged result produced from no contributing data: the default
record with null scalars, empty lists, score 0 and empty ats_reason. -/
def emptyMergedJson : Json :=
  Json.obj [("name", Json.null),
    ("contact", Json.obj [("email", Json.null), ("phone", Json.null)]),
    ("skills", Json.arr []),
    ("experience", Json.arr []),
    ("education", Json.arr []),
    ("certifications", Json.arr []),
    ("ats_score", Json.num 0),
    ("keywords", Json.arr []),
    ("suggestions", Json.arr []),
    ("ats_reason", Json.str "")]

/-- One scalar first-wins update of the merge loop. -/

def scalarStep (cur : Json) (o : Option String) : Json :=
  if !(pyTruthy cur) && pyTruthy (optStrJson o) then optStrJson o else cur

/-- The scalar state after folding first-wins updates over a list. -/
def scalarFoldF (cur : Json) (l : List (Option String)) : Json :=
  l.foldl scalarStep cur

/-- The seen-set accumulated by the string deduplication walk. -/
def accSeen : List String → List String → List String
  | seen, [] => seen
  | seen, x :: xs =>
    if seen.any (fun y => y == x) then accSeen seen xs else accSeen (x :: seen) xs

theorem mergeStep_toJson (st : MSt) (p : PRes) :
    mergeStep st p.toJson = .ok
      ⟨scalarStep st.name p.name, scalarStep st.email p.email, scalarStep st.phone p.phone,
       st.skills ++ p.skills.map Json.str,
       st.experience ++ p.experience,
       st.education ++ p.education,
       st.certifications ++ p.certifications,
       st.keywords ++ p.keywords.map Json.str,
       st.suggestions ++ p.suggestions.map Json.str⟩ := by
  have e1 : extendField st.skills p.toJson "skills" = .ok (st.skills ++ p.skills.map Json.str) := rfl
  have e2 : extendField st.experience p.toJson "experience" = .ok (st.experience ++ p.experience) := rfl
  have e3 : extendField st.education p.toJson "education" = .ok (st.education ++ p.education) := rfl
  have e4 : extendField st.certifications p.toJson "certifications" = .ok (st.certifications ++ p.certifications) := rfl
  have e5 : extendField st.keywords p.toJson "keywords" = .ok (st.keywords ++ p.keywords.map Json.str) := rfl
  have e6 : extendField st.suggestions p.toJson "suggestions" = .ok (st.suggestions ++ p.suggestions.map Json.str) := rfl
  have n1 : pyGetD p.toJson "name" .null = .ok (optStrJson p.name) := rfl
  have c1 : pyGetD p.toJson "contact" (.obj []) =
      .ok (.obj [("email", optStrJson p.email), ("phone", optStrJson p.phone)]) := rfl
  have m1 : pyGetD (Json.obj [("email", optStrJson p.email), ("phone", optStrJson p.phone)]) "email" .null
      = .ok (optStrJson p.email) := rfl
  have m2 : pyGetD (Json.obj [("email", optStrJson p.email), ("phone", optStrJson p.phone)]) "phone" .null
      = .ok (optStrJson p.phone) := rfl
  cases h1 : pyTruthy st.email <;> cases h2 : pyTruthy st.phone <;>
    simp [mergeStep, e1, e2, e3, e4, e5, e6, n1, c1, m1, m2, scalarStep, h1, h2]

theorem mergeLoop_toJson : ∀ (ps : List PRes) (st : MSt),
    mergeLoop st (ps.map PRes.toJson) = .ok
      ⟨scalarFoldF st.name (ps.map PRes.name),
       scalarFoldF st.email (ps.map PRes.email),
       scalarFoldF st.phone (ps.map PRes.phone),
       st.skills ++ ((ps.map PRes.skills).flatten).map Json.str,
       st.experience ++ (ps.map PRes.experience).flatten,
       st.education ++ (ps.map PRes.education).flatten,
       st.certifications ++ (ps.map PRes.certifications).flatten,
       st.keywords ++ ((ps.map PRes.keywords).flatten).map Json.str,
       st.suggestions ++ ((ps.map PRes.suggestions).flatten).map Json.str⟩
  | [], st => by simp [mergeLoop, scalarFoldF]
  | p :: ps, st => by
    simp only [List.map_cons, mergeLoop, mergeStep_toJson]
    rw [mergeLoop_toJson ps]
    simp [scalarFoldF, List.append_assoc, List.map_append, List.flatten_cons]

theorem scoreOfQ_toJson (p : PRes) : scoreOfQ p.toJson = .ok p.ats_score := by
  cases h : p.ats_score <;>
    simp [scoreOfQ, PRes.toJson, lookupKV, optIntJson, h]

theorem pyScores_toJson : ∀ ps : List PRes,
    pyScores (ps.map PRes.toJson) = .ok (ps.filterMap PRes.ats_score)
  | [] => rfl
  | p :: ps => by
    simp only [List.map_cons, pyScores, scoreOfQ_toJson, pyScores_toJson ps]
    cases h : p.ats_score <;> simp [List.filterMap_cons, h]

theorem pyEq_str (a b : String) : pyEq (.str a) (.str b) = (a == b) := rfl

theorem any_pyEq_str (seen : List String) (x : String) :
    (seen.map Json.str).any (fun y => pyEq y (.str x)) = seen.any (fun y => y == x) := by
  induction seen with
  | nil => rfl
  | cons s ss ih => simp only [List.map_cons, List.any_cons, ih, pyEq_str]

theorem pyDedupGo_str : ∀ (seen l : List String),
    pyDedupGo (seen.map Json.str) (l.map Json.str) = (dedupStrGo seen l).map Json.str
  | _, [] => rfl
  | seen, x :: xs => by
    simp only [List.map_cons, pyDedupGo, dedupStrGo, any_pyEq_str]
    cases h : seen.any (fun y => y == x) with
    | true => simp [h, pyDedupGo_str seen xs]
    | false =>
      have := pyDedupGo_str (x :: seen) xs
      simp only [List.map_cons] at this
      simp [h, this]

theorem pyFromKeys_str (l : List String) :
    pyFromKeys (l.map Json.str) = .ok ((dedupStr l).map Json.str) := by
  have hall : (l.map Json.str).all pyHashable = true := by
    induction l with
    | nil => rfl
    | cons a as ih => simp [List.all_cons, ih, pyHashable]
  have h0 := pyDedupGo_str [] l
  simp only [List.map_nil] at h0
  simp [pyFromKeys, hall, dedupStr, h0]

theorem scalarFoldF_truthy (cur : Json) (h : pyTruthy cur = true) :
    ∀ l, scalarFoldF cur l = cur
  | [] => rfl
  | o :: rest => by
    simp [scalarFoldF, List.foldl_cons, scalarStep, h]
    exact scalarFoldF_truthy cur h rest

theorem scalarFoldF_null : ∀ l, scalarFoldF Json.null l = optStrJson (firstTruthyStr l)
  | [] => rfl
  | none :: rest => by
    have hfold : scalarFoldF Json.null (none :: rest) =
        scalarFoldF (scalarStep Json.null none) rest := rfl
    rw [hfold]
    exact scalarFoldF_null rest
  | some s :: rest => by
    have hfold : scalarFoldF Json.null (some s :: rest) =
        scalarFoldF (scalarStep Json.null (some s)) rest := rfl
    by_cases hs : s = ""
    · subst hs
      have hstep : scalarStep Json.null (some "") = Json.null := rfl
      rw [hfold, hstep, scalarFoldF_null rest]
      rfl
    · have hemp : s.isEmpty = false := by
        cases h : s.isEmpty
        · rfl
        · exact absurd ((String.isEmpty_iff s).mp h) hs
      have ht : pyTruthy (optStrJson (some s)) = true := by
        simp [optStrJson, pyTruthy, hemp]
      have hstep : scalarStep Json.null (some s) = optStrJson (some s) := by
        simp only [scalarStep, ht]; rfl
      rw [hfold, hstep, scalarFoldF_truthy _ ht rest]
      simp [firstTruthyStr, hs, optStrJson]

theorem merge_results_toJson (ps : List PRes) :
    merge_results (ps.map PRes.toJson) = .ok (mergedOfPR ps) := by
  simp only [merge_results, mergeLoop_toJson, pyScores_toJson, initSt,
    List.nil_append, pyFromKeys_str, renderMerged, mergedOfPR,
    scalarFoldF_null, floorMean]

theorem dedupStrGo_append : ∀ (l₁ l₂ seen : List String),
    dedupStrGo seen (l₁ ++ l₂) = dedupStrGo seen l₁ ++ dedupStrGo (accSeen seen l₁) l₂
  | [], l₂, seen => rfl
  | x :: xs, l₂, seen => by
    simp only [List.cons_append, dedupStrGo, accSeen]
    cases h : seen.any (fun y => y == x) <;>
      simp [h, dedupStrGo_append xs l₂]

theorem accSeen_any : ∀ (l seen : List String) (x : String),
    (accSeen seen l).any (fun y => y == x) =
      (seen.any (fun y => y == x) || l.any (fun y => y == x))
  | [], seen, x => by simp [accSeen]
  | a :: as, seen, x => by
    simp only [accSeen, List.any_cons]
    cases h : seen.any (fun y => y == a) with
    | true =>
      have ih := accSeen_any as seen x
      by_cases hax : a = x
      · subst hax; simp [ih, h]
      · have hf : (a == x) = false := by simp [hax]
        simp [ih, hf]
    | false =>
      have ih := accSeen_any as (a :: seen) x
      simp only [List.any_cons] at ih
      simp [ih, Bool.or_comm, Bool.or_left_comm, Bool.or_assoc]

theorem dedupStrGo_all_seen : ∀ (l seen : List String),
    (∀ x ∈ l, seen.any (fun y => y == x) = true) → dedupStrGo seen l = []
  | [], _, _ => rfl
  | x :: xs, seen, h => by
    have hx := h x (by simp)
    simp only [dedupStrGo, hx, if_pos]
    exact dedupStrGo_all_seen xs seen (fun z hz => h z (by simp [hz]))

theorem dedupStr_append_self (l : List String) : dedupStr (l ++ l) = dedupStr l := by
  unfold dedupStr
  rw [dedupStrGo_append]
  have h2 : dedupStrGo (accSeen [] l) l = [] := by
    apply dedupStrGo_all_seen
    intro x hx
    rw [accSeen_any]
    simp only [List.any_nil, Bool.false_or, List.any_eq_true]
    exact ⟨x, hx, by simp⟩
  simp [h2]

theorem mergeStep_errorRecord (st : MSt) (raw : String) :
    mergeStep st (errorRecord raw) = .ok st := by
  have e1 : extendField st.skills (errorRecord raw) "skills" = .ok (st.skills ++ []) := rfl
  have e2 : extendField st.experience (errorRecord raw) "experience" = .ok (st.experience ++ []) := rfl
  have e3 : extendField st.education (errorRecord raw) "education" = .ok (st.education ++ []) := rfl
  have e4 : extendField st.certifications (errorRecord raw) "certifications" = .ok (st.certifications ++ []) := rfl
  have e5 : extendField st.keywords (errorRecord raw) "keywords" = .ok (st.keywords ++ []) := rfl
  have e6 : extendField st.suggestions (errorRecord raw) "suggestions" = .ok (st.suggestions ++ []) := rfl
  have n1 : pyGetD (errorRecord raw) "name" .null = .ok .null := rfl
  have c1 : pyGetD (errorRecord raw) "contact" (.obj []) = .ok (.obj []) := rfl
  have m1 : pyGetD (Json.obj []) "email" .null = .ok .null := rfl
  have m2 : pyGetD (Json.obj []) "phone" .null = .ok .null := rfl
  cases h1 : pyTruthy st.email <;> cases h2 : pyTruthy st.phone <;>
    simp [mergeStep, e1, e2, e3, e4, e5, e6, n1, c1, m1, m2, h1, h2, pyTruthy]

theorem mergeLoop_errorRecord_mid : ∀ (xs : List Json) (st : MSt) (raw : String) (ys : List Json),
    mergeLoop st (xs ++ errorRecord raw :: ys) = mergeLoop st (xs ++ ys)
  | [], st, raw, ys => by
    simp only [List.nil_append, mergeLoop, mergeStep_errorRecord]
  | r :: xs, st, raw, ys => by
    simp only [List.cons_append, mergeLoop]
    cases h : mergeStep st r <;> simp [mergeLoop_errorRecord_mid xs _ raw ys]

theorem pyScores_errorRecord_mid : ∀ (xs : List Json) (raw : String) (ys : List Json),
    pyScores (xs ++ errorRecord raw :: ys) = pyScores (xs ++ ys)
  | [], raw, ys => by
    have h : scoreOfQ (errorRecord raw) = .ok none := rfl
    simp only [List.nil_append, pyScores, h]
    cases hy : pyScores ys <;> simp
  | r :: xs, raw, ys => by
    simp only [List.cons_append, pyScores]
    rw [show xs.append (errorRecord raw :: ys) = xs ++ errorRecord raw :: ys from rfl,
      show xs.append ys = xs ++ ys from rfl, pyScores_errorRecord_mid xs raw ys]

theorem merge_results_absorb (xs ys : List Json) (raw : String) :
    merge_results (xs ++ errorRecord raw :: ys) = merge_results (xs ++ ys) := by
  simp only [merge_results, mergeLoop_errorRecord_mid, pyScores_errorRecord_mid]

theorem idxOfOpen_append : ∀ (pre l : List Char), (∀ c ∈ pre, ¬c = '{') →
    idxOfOpen (pre ++ l) = (idxOfOpen l).map (fun i => pre.length + i)
  | [], l, _ => by cases hi : idxOfOpen l <;> simp [hi]
  | c :: pre, l, h => by
    have hc : (c == '{') = false := by
      simp only [beq_eq_false_iff_ne, ne_eq]
      exact h c (by simp)
    simp only [List.cons_append, idxOfOpen, hc, Bool.false_eq_true, if_false]
    rw [show pre.append l = pre ++ l from rfl,
      idxOfOpen_append pre l (fun d hd => h d (by simp [hd]))]
    cases hi : idxOfOpen l <;> (simp [hi]; try omega)

theorem idxOfCloseRev_append : ∀ (pre l : List Char), (∀ c ∈ pre, ¬c = '}') →
    idxOfCloseRev (pre ++ l) = (idxOfCloseRev l).map (fun i => pre.length + i)
  | [], l, _ => by cases hi : idxOfCloseRev l <;> simp [hi]
  | c :: pre, l, h => by
    have hc : (c == '}') = false := by
      simp only [beq_eq_false_iff_ne, ne_eq]
      exact h c (by simp)
    simp only [List.cons_append, idxOfCloseRev, hc, Bool.false_eq_true, if_false]
    rw [show pre.append l = pre ++ l from rfl,
      idxOfCloseRev_append pre l (fun d hd => h d (by simp [hd]))]
    cases hi : idxOfCloseRev l <;> (simp [hi]; try omega)

theorem braceBlock_embed (preS objS sufS : String)
    (hpre : ∀ c ∈ preS.data, ¬c = '{') (hsuf : ∀ c ∈ sufS.data, ¬c = '}')
    (hh : objS.data.head? = some '{') (hl : objS.data.getLast? = some '}') :
    braceBlock (preS ++ objS ++ sufS) = some objS := by
  obtain ⟨t, ht⟩ : ∃ t, objS.data = '{' :: t := by
    cases hd : objS.data with
    | nil => rw [hd] at hh; cases hh
    | cons c u =>
      rw [hd] at hh
      simp only [List.head?_cons, Option.some.injEq] at hh
      exact ⟨u, by rw [hh]⟩
  obtain ⟨u, hu⟩ : ∃ u, objS.data.reverse = '}' :: u := by
    have hrev : objS.data.reverse.head? = some '}' := by
      rw [List.head?_reverse]; exact hl
    cases hr : objS.data.reverse with
    | nil => rw [hr] at hrev; cases hrev
    | cons c w =>
      rw [hr] at hrev
      simp only [List.head?_cons, Option.some.injEq] at hrev
      exact ⟨w, by rw [hrev]⟩
  have hdata : (preS ++ objS ++ sufS).data = preS.data ++ (objS.data ++ sufS.data) := by
    simp [String.data_append, List.append_assoc]
  have hopen : idxOfOpen ((preS ++ objS ++ sufS).data) = some preS.data.length := by
    rw [hdata, idxOfOpen_append _ _ hpre, ht]
    simp [idxOfOpen]
  have hdrop : ((preS ++ objS ++ sufS).data).drop preS.data.length = objS.data ++ sufS.data := by
    rw [hdata]; exact List.drop_left _ _
  have hclose : idxOfCloseRev ((objS.data ++ sufS.data).reverse) = some sufS.data.length := by
    rw [List.reverse_append]
    have hsufrev : ∀ c ∈ sufS.data.reverse, ¬c = '}' := by
      intro c hc; exact hsuf c (List.mem_reverse.mp hc)
    rw [idxOfCloseRev_append _ _ hsufrev, hu]
    simp [idxOfCloseRev]
  have htake : (objS.data ++ sufS.data).take ((objS.data ++ sufS.data).length - sufS.data.length)
      = objS.data := by
    have hlen : (objS.data ++ sufS.data).length - sufS.data.length = objS.data.length := by
      simp [List.length_append]
    rw [hlen]; exact List.take_left _ _
  unfold braceBlock
  rw [hopen]
  simp only [hdrop, hclose, htake]

theorem merge_ok_shape (results : List Json) (m : Json)
    (h : merge_results results = .ok m) :
    pyGetQ (Except.ok m) "error" = none ∧ pyGetQ (Except.ok m) "raw_output" = none := by
  unfold merge_results at h
  cases hml : mergeLoop initSt results with
  | error e => rw [hml] at h; cases h
  | ok st =>
    rw [hml] at h
    dsimp only at h
    cases hps : pyScores results with
    | error e => rw [hps] at h; cases h
    | ok scores =>
      rw [hps] at h
      dsimp only at h
      cases h1 : pyFromKeys st.skills with
      | error e => rw [h1] at h; cases h
      | ok a =>
        rw [h1] at h
        dsimp only at h
        cases h2 : pyFromKeys st.keywords with
        | error e => rw [h2] at h; cases h
        | ok b =>
          rw [h2] at h
          dsimp only at h
          cases h3 : pyFromKeys st.suggestions with
          | error e => rw [h3] at h; cases h
          | ok c =>
            rw [h3] at h
            dsimp only at h
            cases h
            exact ⟨rfl, rfl⟩

/-- C1: for every raw model reply, the parse portion of process_chunk
returns a value: either the successfully decoded candidate text, or the
error record carrying the original raw reply and the explicit error
marker; a decoding failure never escapes as an exception. -/
theorem C1_parse_total (raw : String) :
    (∃ v, jsonLoads (candidateText raw) = some v ∧ process_chunk_parse raw = v) ∨
    process_chunk_parse raw = errorRecord raw := by
  rcases h : jsonLoads (candidateText raw) with _ | v
  · right; simp [process_chunk_parse, h]
  · left; refine ⟨v, ?_, ?_⟩ <;> simp [process_chunk_parse, h]

/-- C2 counterexample: with the single unparseable reply "hello", the
endpoint still answers ok true, but the data field is the default merged
record: it contains neither the error marker nor the raw reply text, so
the claim that data contains the in-band error record is false. -/
theorem C2_counterexample :
    process_chunk_parse "hello" = errorRecord "hello" ∧
    parse_resume_response ["hello"] =
      .ok (Json.obj [("ok", Json.bool true), ("data", emptyMergedJson)]) ∧
    pyGetQ (Except.ok emptyMergedJson) "error" = none ∧
    pyGetQ (Except.ok emptyMergedJson) "raw_output" = none :=
  ⟨rfl, rfl, rfl, rfl⟩

/-- C2 amended: when some chunk reply fails to parse, the endpoint
response is still a success with ok true, and its data field is the
merged result in which the error record has been silently absorbed; the
error marker and the raw reply text do not appear among the data keys. -/
theorem C2_amended_success_masks_error (pre post : List String) (raw : String) (m : Json)
    (h1 : process_chunk_parse raw = errorRecord raw)
    (h2 : merge_results ((pre ++ post).map process_chunk_parse) = .ok m) :
    parse_resume_response (pre ++ raw :: post) =
      .ok (Json.obj [("ok", Json.bool true), ("data", m)]) ∧
    pyGetQ (Except.ok m) "error" = none ∧
    pyGetQ (Except.ok m) "raw_output" = none := by
  have hmap : (pre ++ raw :: post).map process_chunk_parse =
      (pre.map process_chunk_parse) ++ errorRecord raw :: (post.map process_chunk_parse) := by
    simp [List.map_append, h1]
  have hm : merge_results ((pre ++ raw :: post).map process_chunk_parse) = .ok m := by
    rw [hmap, merge_results_absorb]
    rw [show pre.map process_chunk_parse ++ post.map process_chunk_parse
        = (pre ++ post).map process_chunk_parse from (List.map_append _ _ _).symm]
    exact h2
  have hsh := merge_ok_shape _ m h2
  refine ⟨?_, hsh.1, hsh.2⟩
  show respondBody ((pre ++ raw :: post).map process_chunk_parse) = _
  unfold respondBody
  rw [hm]

/-- C2 amended, witness: the amended statement instantiated at the single
failing reply "hello" with no other chunks. -/
theorem C2_amended_witness :
    process_chunk_parse "hello" = errorRecord "hello" ∧
    merge_results ((([] : List String) ++ ([] : List String)).map process_chunk_parse) =
      .ok emptyMergedJson ∧
    (parse_resume_response (([] : List String) ++ "hello" :: ([] : List String)) =
      .ok (Json.obj [("ok", Json.bool true), ("data", emptyMergedJson)]) ∧
     pyGetQ (Except.ok emptyMergedJson) "error" = none ∧
     pyGetQ (Except.ok emptyMergedJson) "raw_output" = none) :=
  ⟨rfl, rfl, C2_amended_success_masks_error [] [] "hello" emptyMergedJson rfl rfl⟩

/-- C3 counterexample: in a reply whose prose contains brace characters,
the first-to-last brace span swallows the prose, the embedded well-formed
object is not selected, and the parser yields the error record instead of
the decoded object, so the claim fails for prose containing braces. -/
theorem C3_counterexample :
    braceBlock "note \x7bx\x7d here \x7b\"a\": 1\x7d done" =
      some "\x7bx\x7d here \x7b\"a\": 1\x7d" ∧
    jsonLoads "\x7b\"a\": 1\x7d" = some (Json.obj [("a", Json.num 1)]) ∧
    process_chunk_parse "note \x7bx\x7d here \x7b\"a\": 1\x7d done" =
      errorRecord "note \x7bx\x7d here \x7b\"a\": 1\x7d done" :=
  ⟨rfl, rfl, rfl⟩

/-- C3 amended: for every reply made of a well-formed JSON object with
surrounding prose, where the prose before the object contains no open
brace and the prose after it contains no close brace, the extraction
selects exactly the object text and the parser returns its decoding. -/
theorem C3_amended_embedded_object (preS objS sufS : String) (v : Json)
    (hpre : ∀ c ∈ preS.data, ¬c = '{') (hsuf : ∀ c ∈ sufS.data, ¬c = '}')
    (hh : objS.data.head? = some '{') (hl : objS.data.getLast? = some '}')
    (hv : jsonLoads objS = some v) :
    braceBlock (preS ++ objS ++ sufS) = some objS ∧
    process_chunk_parse (preS ++ objS ++ sufS) = v := by
  have hb := braceBlock_embed preS objS sufS hpre hsuf hh hl
  refine ⟨hb, ?_⟩
  simp [process_chunk_parse, candidateText, hb, hv]

/-- C3 amended, witness: a concrete prose-wrapped object is selected and
decoded exactly. -/
theorem C3_amended_witness :
    (∀ c ∈ ("Sure, here you go: " : String).data, ¬c = '{') ∧
    (∀ c ∈ (" Hope this helps." : String).data, ¬c = '}') ∧
    ("\x7b\"a\": 1\x7d" : String).data.head? = some '{' ∧
    ("\x7b\"a\": 1\x7d" : String).data.getLast? = some '}' ∧
    jsonLoads "\x7b\"a\": 1\x7d" = some (Json.obj [("a", Json.num 1)]) ∧
    (braceBlock ("Sure, here you go: " ++ "\x7b\"a\": 1\x7d" ++ " Hope this helps.") =
        some "\x7b\"a\": 1\x7d" ∧
      process_chunk_parse ("Sure, here you go: " ++ "\x7b\"a\": 1\x7d" ++ " Hope this helps.") =
        Json.obj [("a", Json.num 1)]) :=
  ⟨by decide, by decide, by decide, by decide, rfl,
   C3_amended_embedded_object "Sure, here you go: " "\x7b\"a\": 1\x7d" " Hope this helps."
     (Json.obj [("a", Json.num 1)]) (by decide) (by decide) (by decide) (by decide) rfl⟩

/-- C4 counterexample: a reply whose brace span is malformed but whose
whole stripped text is valid JSON yields the error record, not the
decoded whole-reply value; the claimed whole-reply fall-back after a
failed brace-block decode does not exist in the code. -/
theorem C4_counterexample :
    process_chunk_parse "[\"\x7b\", \"\x7d\"]" = errorRecord "[\"\x7b\", \"\x7d\"]" ∧
    jsonLoads (pyStrip "[\"\x7b\", \"\x7d\"]") =
      some (Json.arr [Json.str "\x7b", Json.str "\x7d"]) :=
  ⟨rfl, rfl⟩

/-- C4 amended: the parser decodes the brace span when one exists and
otherwise decodes the stripped whole reply; in either case a decode
failure goes straight to the error record, with no second attempt. -/
theorem C4_parser_algorithm (raw : String) :
    process_chunk_parse raw =
      (match braceBlock raw with
      | some b => (jsonLoads b).getD (errorRecord raw)
      | none => (jsonLoads (pyStrip raw)).getD (errorRecord raw)) := by
  unfold process_chunk_parse candidateText
  cases hb : braceBlock raw with
  | none => cases hj : jsonLoads (pyStrip raw) <;> simp [hb, hj]
  | some b => cases hj : jsonLoads b <;> simp [hb, hj]

/-- C5: merged skills, keywords and suggestions are the order-preserving
first-occurrence deduplication of the concatenated chunk lists, while
experience, education and certifications concatenate without
deduplication; consequently merging a duplicated chunk gives the same
deduplicated lists as merging it once. -/
theorem C5_merge_lists :
    (∀ ps : List PRes,
      pyGetQ (merge_results (ps.map PRes.toJson)) "skills" =
        some (.arr ((dedupStr ((ps.map PRes.skills).flatten)).map Json.str)) ∧
      pyGetQ (merge_results (ps.map PRes.toJson)) "keywords" =
        some (.arr ((dedupStr ((ps.map PRes.keywords).flatten)).map Json.str)) ∧
      pyGetQ (merge_results (ps.map PRes.toJson)) "suggestions" =
        some (.arr ((dedupStr ((ps.map PRes.suggestions).flatten)).map Json.str)) ∧
      pyGetQ (merge_results (ps.map PRes.toJson)) "experience" =
        some (.arr ((ps.map PRes.experience).flatten)) ∧
      pyGetQ (merge_results (ps.map PRes.toJson)) "education" =
        some (.arr ((ps.map PRes.education).flatten)) ∧
      pyGetQ (merge_results (ps.map PRes.toJson)) "certifications" =
        some (.arr ((ps.map PRes.certifications).flatten))) ∧
    (∀ A : PRes,
      pyGetQ (merge_results ([A, A].map PRes.toJson)) "skills" =
        pyGetQ (merge_results ([A].map PRes.toJson)) "skills" ∧
      pyGetQ (merge_results ([A, A].map PRes.toJson)) "keywords" =
        pyGetQ (merge_results ([A].map PRes.toJson)) "keywords" ∧
      pyGetQ (merge_results ([A, A].map PRes.toJson)) "suggestions" =
        pyGetQ (merge_results ([A].map PRes.toJson)) "suggestions") := by
  constructor
  · intro ps
    rw [merge_results_toJson]
    exact ⟨rfl, rfl, rfl, rfl, rfl, rfl⟩
  · intro A
    rw [merge_results_toJson, merge_results_toJson]
    refine ⟨?_, ?_, ?_⟩ <;>
      simp [mergedOfPR, pyGetQ, lookupKV, List.flatten, dedupStr_append_self]

/-- C6 counterexample: for the numeric chunk scores -1 and 0 the merged
score is -1 (Python floor division), while the integer-truncated mean is
0, so the merged score is not the integer-truncated mean in general. -/
theorem C6_counterexample :
    pyGetQ (merge_results [Json.obj [("ats_score", Json.num (-1))],
        Json.obj [("ats_score", Json.num 0)]]) "ats_score" = some (Json.num (-1)) ∧
    truncMean [-1, 0] = 0 ∧
    Json.num (-1) ≠ Json.num 0 :=
  ⟨rfl, rfl, fun h => by cases h⟩

/-- C6 amended: the merged ats_score is the floor (Python floor division)
of the mean of the numeric scores present, 0 when none is present; this
coincides with the integer-truncated mean whenever the score sum is
nonnegative, and in particular scores 80, 90, 70 merge to 80. -/
theorem C6_merge_score_floor_mean :
    (∀ ps : List PRes,
      pyGetQ (merge_results (ps.map PRes.toJson)) "ats_score" =
        some (Json.num (floorMean (ps.filterMap PRes.ats_score)))) ∧
    pyGetQ (merge_results [Json.obj [("ats_score", Json.num 80)],
        Json.obj [("ats_score", Json.num 90)],
        Json.obj [("ats_score", Json.num 70)]]) "ats_score" = some (Json.num 80) := by
  constructor
  · intro ps
    rw [merge_results_toJson]
    rfl
  · rfl

/-- C7 counterexample: with chunk names empty string then Jane Doe, the
merged name is Jane Doe although the first non-null name is the empty
string: the code takes the first truthy value, not the first non-null
one. -/
theorem C7_counterexample :
    pyGetQ (merge_results [Json.obj [("name", Json.str "")],
        Json.obj [("name", Json.str "Jane Doe")]]) "name" = some (Json.str "Jane Doe") ∧
    firstNonNullStr [some "", some "Jane Doe"] = some "" ∧
    ("Jane Doe" : String) ≠ "" :=
  ⟨rfl, rfl, by decide⟩

/-- C7 amended: each merged scalar field (name, contact email, contact
phone) is the first truthy value in chunk order, that is the first value
that is present and nonempty; in particular names null, Jane Doe, X merge
to Jane Doe. -/
theorem C7_merge_scalars_first_truthy :
    (∀ ps : List PRes,
      pyGetQ (merge_results (ps.map PRes.toJson)) "name" =
        some (optStrJson (firstTruthyStr (ps.map PRes.name))) ∧
      pyGetQ (merge_results (ps.map PRes.toJson)) "contact" =
        some (.obj [("email", optStrJson (firstTruthyStr (ps.map PRes.email))),
                    ("phone", optStrJson (firstTruthyStr (ps.map PRes.phone)))])) ∧
    pyGetQ (merge_results [Json.obj [("name", Json.null)],
        Json.obj [("name", Json.str "Jane Doe")],
        Json.obj [("name", Json.str "X")]]) "name" = some (Json.str "Jane Doe") := by
  constructor
  · intro ps
    rw [merge_results_toJson]
    exact ⟨rfl, rfl⟩
  · rfl

/-- C8: an error record anywhere in the input sequence contributes no
list elements, no scalars and no score, and does not abort the merge:
merging with it gives exactly the merge of the sequence without it. -/
theorem C8_error_record_absorbed (xs ys : List Json) (raw : String) :
    merge_results (xs ++ errorRecord raw :: ys) = merge_results (xs ++ ys) :=
  merge_results_absorb xs ys raw

/-- C9: for every request, whatever the outcomes of extraction, chunking,
the model calls, parsing and merging, the temporary file created for the
upload is no longer present when the handler finishes, and the filesystem
is as before the request. -/
theorem C9_temp_file_removed (fs : List String) (tmpPath : String)
    (extract : Except String String)
    (chunkOf : String → Except String (List String))
    (modelReply : String → Except String String)
    (h : tmpPath ∉ fs) :
    (parse_resume_run fs tmpPath extract chunkOf modelReply).2 = fs ∧
    tmpPath ∉ (parse_resume_run fs tmpPath extract chunkOf modelReply).2 := by
  have he : (parse_resume_run fs tmpPath extract chunkOf modelReply).2 =
      (tmpPath :: fs).erase tmpPath := rfl
  rw [he, List.erase_cons_head]
  exact ⟨rfl, h⟩

/-- C9 witness: cleanup on a request whose extraction stage faults. -/
theorem C9_witness :
    ("resumetmp.pdf" ∉ (["other.txt"] : List String)) ∧
    ((parse_resume_run ["other.txt"] "resumetmp.pdf" (.error "extraction fault")
        (fun t => .ok [t]) (fun c => .ok c)).2 = ["other.txt"] ∧
      "resumetmp.pdf" ∉ (parse_resume_run ["other.txt"] "resumetmp.pdf"
        (.error "extraction fault") (fun t => .ok [t]) (fun c => .ok c)).2) :=
  ⟨by decide,
   C9_temp_file_removed ["other.txt"] "resumetmp.pdf" (.error "extraction fault")
     (fun t => .ok [t]) (fun c => .ok c) (by decide)⟩

/-- C10: merge_results is total on the empty input, returning the default
record with null scalars, empty lists, score 0 and empty ats_reason; and
the average is guarded: every input sequence with no numeric score merges
to score 0, with no division performed. -/
theorem C10_merge_empty_total :
    merge_results [] = .ok emptyMergedJson ∧
    (∀ ps : List PRes, ps.filterMap PRes.ats_score = [] →
      pyGetQ (merge_results (ps.map PRes.toJson)) "ats_score" = some (Json.num 0)) := by
  constructor
  · rfl
  · intro ps h
    rw [merge_results_toJson]
    show some (Json.num (floorMean (ps.filterMap PRes.ats_score))) = some (Json.num 0)
    rw [h]
    rfl

/-- C10 witness: the guard instantiated at a singleton sequence whose
only result carries no numeric score. -/
theorem C10_witness :
    (([⟨none, none, none, [], [], [], [], none, [], [], ""⟩] : List PRes).filterMap
        PRes.ats_score = []) ∧
    pyGetQ (merge_results (([⟨none, none, none, [], [], [], [], none, [], [], ""⟩] :
        List PRes).map PRes.toJson)) "ats_score" = some (Json.num 0) :=
  ⟨rfl, C10_merge_empty_total.2 [⟨none, none, none, [], [], [], [], none, [], [], ""⟩] rfl⟩
